import Mathlib

/-!
Shallow embedding of the kdep/workspace code of sigma/dep
(src/internal/kdep/project.go: package kdep and the workspace command of
package main) and proofs about it.

Go maps are modelled as association lists where the most recent binding
wins: map assignment `m[k] = v` appends a binding, lookup returns the last
binding for a key, and deletion filters the key out.  All theorems observe
maps only through `lookupKey`, which quotients out both the physical list
representation and the unspecified Go map iteration order.
-/

namespace KdepSpec

/-- Lookup in the association-list model of a Go map: the last binding for a
key wins, matching the append model of map assignment. -/
def lookupKey {β : Type} : List (String × β) → String → Option β
  | [], _ => none
  | e :: rest, k =>
    match lookupKey rest k with
    | some v => some v
    | none => if e.1 = k then some e.2 else none

theorem lookupKey_nil {β : Type} (k : String) : lookupKey ([] : List (String × β)) k = none := rfl

theorem lookupKey_append_some {β : Type} {l₂ : List (String × β)} {k : String} {v : β}
    (l₁ : List (String × β)) (h : lookupKey l₂ k = some v) :
    lookupKey (l₁ ++ l₂) k = some v := by
  induction l₁ with
  | nil => simpa using h
  | cons e rest ih =>
    show lookupKey (e :: (rest ++ l₂)) k = some v
    unfold lookupKey
    rw [ih]

theorem lookupKey_append_none {β : Type} {l₂ : List (String × β)} {k : String}
    (l₁ : List (String × β)) (h : lookupKey l₂ k = none) :
    lookupKey (l₁ ++ l₂) k = lookupKey l₁ k := by
  induction l₁ with
  | nil => simpa using h
  | cons e rest ih =>
    show lookupKey (e :: (rest ++ l₂)) k = lookupKey (e :: rest) k
    unfold lookupKey
    rw [ih]

theorem lookupKey_filter_of_key_dropped {β : Type} {p : String × β → Bool} {k : String}
    (l : List (String × β)) (hp : ∀ v : β, p (k, v) = false) :
    lookupKey (l.filter p) k = none := by
  induction l with
  | nil => rfl
  | cons e rest ih =>
    by_cases he : p e = true
    · rw [List.filter_cons_of_pos he]
      unfold lookupKey
      rw [ih]
      have hk : e.1 ≠ k := by
        intro hk
        have : p (k, e.2) = true := by
          have : e = (k, e.2) := by
            cases e; simp_all
          rw [← this]; exact he
        rw [hp e.2] at this
        exact Bool.false_ne_true this
      simp [hk]
    · rw [List.filter_cons_of_neg he]
      exact ih

theorem lookupKey_filter_none {β : Type} {p : String × β → Bool} {k : String}
    (l : List (String × β)) (h : lookupKey l k = none) :
    lookupKey (l.filter p) k = none := by
  induction l with
  | nil => rfl
  | cons e rest ih =>
    unfold lookupKey at h
    by_cases hrest : lookupKey rest k = none
    · rw [hrest] at h
      have hk : ¬ (e.1 = k) := by
        intro hk
        simp [hk] at h
      by_cases he : p e = true
      · rw [List.filter_cons_of_pos he]
        unfold lookupKey
        rw [ih hrest]
        simp [hk]
      · rw [List.filter_cons_of_neg he]
        exact ih hrest
    · exfalso
      cases hv : lookupKey rest k with
      | none => exact hrest hv
      | some v => rw [hv] at h; exact Option.noConfusion h

/-- PackageOrErr of gps/pkgtree: either a parsed package (with its
direct imports) or the per-package parse error, recorded inline. -/
inductive PackageOrErr where
  | pkg (imports : List String)
  | err (msg : String)
deriving DecidableEq

def PackageOrErr.isPkg : PackageOrErr → Bool
  | .pkg _ => true
  | .err _ => false

def PackageOrErr.isErr : PackageOrErr → Bool
  | .pkg _ => false
  | .err _ => true

/-- PackageTree of gps/pkgtree: an import root together with the map
from import path to PackageOrErr. -/
structure PackageTree where
  importRoot : String
  packages : List (String × PackageOrErr)
deriving DecidableEq

/-- Model of strings.HasPrefix: the character data of the first string
starts with the character data of the second.  On UTF-8 strings this agrees
with the byte-wise Go test. -/
def goHasPrefix (s p : String) : Bool :=
  List.isPrefixOf p.data s.data

/-- Condition from Project.ParseRootPackageTree, line 145 of project.go:
the import path imp falls under ImportRoot + "/" + one of the local gopaths
(tested with strings.HasPrefix). -/
def underLocalGopath (importRoot : String) (gopaths : List String) (k : String) : Bool :=
  gopaths.any (fun gp => goHasPrefix k (importRoot ++ "/" ++ gp))

/-- Lines 143-149 of project.go: delete from the base tree every entry
whose import path falls under ImportRoot + "/" + a local gopath. -/
def stripLocalGopaths (importRoot : String) (gopaths : List String)
    (pkgs : List (String × PackageOrErr)) : List (String × PackageOrErr) :=
  pkgs.filter (fun e => !underLocalGopath importRoot gopaths e.1)

/-- Lines 151-156 of project.go (also lines 447-452 for the workspace): copy
every entry of every overlay tree into the base map, overwriting on conflict.
Map assignment is modelled by appending a binding (last binding wins). -/
def mergePackages (base : List (String × PackageOrErr))
    (overlays : List (List (String × PackageOrErr))) : List (String × PackageOrErr) :=
  overlays.foldl (fun acc ov => ov.foldl (fun a e => a ++ [e]) acc) base

/-- Last overlay containing the key wins, mirroring the overwrite order of
the copy loops. -/
def lookupOverlays : List (List (String × PackageOrErr)) → String → Option PackageOrErr
  | [], _ => none
  | ov :: rest, k =>
    match lookupOverlays rest k with
    | some v => some v
    | none => lookupKey ov k

theorem foldl_append_entries {β : Type} (ov : List (String × β)) (acc : List (String × β)) :
    ov.foldl (fun a e => a ++ [e]) acc = acc ++ ov := by
  induction ov generalizing acc with
  | nil => simp
  | cons e rest ih =>
    show rest.foldl (fun a e => a ++ [e]) (acc ++ [e]) = acc ++ e :: rest
    rw [ih]
    simp

theorem lookupKey_mergePackages (overlays : List (List (String × PackageOrErr)))
    (base : List (String × PackageOrErr)) (k : String) :
    lookupKey (mergePackages base overlays) k =
      match lookupOverlays overlays k with
      | some v => some v
      | none => lookupKey base k := by
  induction overlays generalizing base with
  | nil => rfl
  | cons ov rest ih =>
    show lookupKey (mergePackages (ov.foldl (fun a e => a ++ [e]) base) rest) k = _
    rw [foldl_append_entries, ih (base ++ ov)]
    show _ = (match (match lookupOverlays rest k with
        | some v => some v
        | none => lookupKey ov k) with
      | some v => some v
      | none => lookupKey base k)
    cases hrest : lookupOverlays rest k with
    | some v => simp
    | none =>
      cases hov : lookupKey ov k with
      | some v => simp [lookupKey_append_some base hov]
      | none => simp [lookupKey_append_none base hov]

theorem lookupOverlays_of_all_none {overlays : List (List (String × PackageOrErr))}
    {k : String} (h : ∀ ov ∈ overlays, lookupKey ov k = none) :
    lookupOverlays overlays k = none := by
  induction overlays with
  | nil => rfl
  | cons ov rest ih =>
    unfold lookupOverlays
    rw [ih (fun o ho => h o (List.mem_cons_of_mem ov ho)), h ov (List.mem_cons_self ov rest)]

theorem lookupOverlays_mem {overlays : List (List (String × PackageOrErr))}
    {k : String} {v : PackageOrErr} (h : lookupOverlays overlays k = some v) :
    ∃ ov ∈ overlays, lookupKey ov k = some v := by
  induction overlays with
  | nil => exact Option.noConfusion h
  | cons ov rest ih =>
    unfold lookupOverlays at h
    cases hrest : lookupOverlays rest k with
    | some w =>
      rw [hrest] at h
      obtain ⟨o, ho, hv⟩ := ih (hrest.trans (by injection h with h2; rw [h2]))
      exact ⟨o, List.mem_cons_of_mem ov ho, hv⟩
    | none =>
      rw [hrest] at h
      exact ⟨ov, (List.mem_cons_self ov rest), h⟩

/-- The package-tree merge performed by kdep Project.ParseRootPackageTree
(lines 142-157 of project.go): strip the base entries under the local
gopaths, then copy in every sub-project tree, overwriting on conflict.  The
returned tree keeps the ImportRoot of the base tree (the code mutates the parsed
base tree in place). -/
def mergePackageTree (importRoot : String) (gopaths : List String)
    (base : PackageTree) (subs : List PackageTree) : PackageTree :=
  { importRoot := base.importRoot
    packages := mergePackages (stripLocalGopaths importRoot gopaths base.packages)
      (subs.map (fun t => t.packages)) }

/-- Modelled from the spec: gps.Constraint lives in the external
github.com/golang/dep/gps library.  Per spec section 3 it is a predicate
over versions supporting Intersect (most restrictive common constraint) that
degrades to the empty set when incompatible.  Versions are modelled as
naturals and constraints as closed intervals, which realises exactly that
contract. -/
structure Constraint where
  lo : Nat
  hi : Nat
deriving DecidableEq

def Constraint.intersect (a b : Constraint) : Constraint :=
  { lo := max a.lo b.lo, hi := min a.hi b.hi }

def Constraint.isEmpty (c : Constraint) : Bool :=
  c.hi < c.lo

def Constraint.matchesVersion (c : Constraint) (v : Nat) : Bool :=
  c.lo ≤ v && v ≤ c.hi

/-- gps.ProjectProperties: the source hint and the declared constraint for
one ProjectRoot.  It is a Go struct, so reading it out of a map yields a
copy with value semantics. -/
structure ProjectProperties where
  source : String
  constraint : Constraint
deriving DecidableEq

namespace Kdep

/-- The kdep-specific metadata block of a kdep Manifest (fields of
Manifest.Meta read by project.go). -/
structure Metadata where
  isKdepRoot : Bool
  isKdepChild : Bool
  localDeps : List String
  localGopaths : List String
  godepCompat : Bool
deriving DecidableEq

/-- The kdep Manifest as read by project.go: only its Meta block matters
here. -/
structure Manifest where
  meta : Metadata
deriving DecidableEq

/-- The data project.go reads from an embedded (external) dep.Project:
its import root and the package tree that dep.Project.ParseRootPackageTree
returns for it.  The dep-side parser is an external collaborator, so its
result is an input of the embedding. -/
structure DepProject where
  importRoot : String
  rootTree : PackageTree
deriving DecidableEq

/-- gps.SolveParameters as constructed by MakeParams: the fields the kdep
code sets.  usesKdepManifest records whether params.Manifest was set to the
kdep manifest (kdep branch) as opposed to whatever the MakeParams of dep
builds. -/
structure SolveParameters where
  rootDir : String
  usesKdepManifest : Bool
  hasLock : Bool
deriving DecidableEq

/-- kdep.Project (lines 35-41 of project.go): wraps a dep.Project together
with the kdep manifest and the loaded sub-projects.  SubProjects is a slice
of pointers, so entries may be nil (modelled by Option).  depParams is what
what MakeParams of the embedded dep.Project would return (external), an input
of the embedding. -/
structure Project where
  depProject : DepProject
  absRoot : String
  manifest : Manifest
  subProjects : List (Option DepProject)
  depParams : SolveParameters
  hasLock : Bool
deriving DecidableEq

/-- Line 50 of project.go, the project test: the manifest is nil or marks
neither a kdep root nor a kdep child. -/
def isNonKdep : Option Manifest → Bool
  | none => true
  | some mm => !mm.meta.isKdepRoot && !mm.meta.isKdepChild

/-- Lines 50-52 of project.go: the WrapProject update of the package-level
mutable flag FallbackToDep.  Given the current value of the flag and the
manifest found for the project (none when manifestFromProject returns nil),
it returns the new value of the flag. -/
def wrapProjectFallback (fallbackToDep : Bool) (m : Option Manifest) : Bool :=
  if !fallbackToDep && isNonKdep m then true
  else fallbackToDep

/-- Lines 114-130 of project.go: MakeParams returns the parameters of dep
itself in fallback mode, and otherwise builds gps.SolveParameters from the
root of the project, its kdep manifest and the optional lock. -/
def Project.makeParams (fallbackToDep : Bool) (p : Project) : SolveParameters :=
  if fallbackToDep then p.depParams
  else { rootDir := p.absRoot, usesKdepManifest := true, hasLock := p.hasLock }

/-- Turns the SubProjects slice into the list of sub-project trees, or none
as soon as a nil entry is reached: calling ParseRootPackageTree through a
nil dep.Project pointer dereferences nil (a runtime panic), modelled as
none. -/
def collectSubTrees : List (Option DepProject) → Option (List PackageTree)
  | [] => some []
  | none :: _ => none
  | some sub :: rest =>
    match collectSubTrees rest with
    | none => none
    | some ts => some (sub.rootTree :: ts)

/-- Lines 133-158 of project.go: kdep Project.ParseRootPackageTree.  In
fallback mode it returns the dep tree unchanged; otherwise it strips the base
tree and merges in every sub-project tree.  A nil SubProjects entry makes
the call panic (none). -/
def Project.parseRootPackageTree (fallbackToDep : Bool) (p : Project) : Option PackageTree :=
  if fallbackToDep then some p.depProject.rootTree
  else
    match collectSubTrees p.subProjects with
    | none => none
    | some subs =>
      some (mergePackageTree p.depProject.importRoot p.manifest.meta.localGopaths
        p.depProject.rootTree subs)

/-- Model of filepath.Join for the already-clean relative components used in
project.go. -/
def pathJoin (a b : String) : String := a ++ "/" ++ b

/-- The external environment WrapProject probes while loading sub-projects:
which candidate directories exist (os.Stat succeeding) and what
ctx.LoadProject returns for each directory. -/
structure WrapEnv where
  existingDirs : List String
  loadedProjects : List (String × DepProject)
deriving DecidableEq

/-- Lines 71-93 of project.go, inner loop for one entry of Meta.LocalDeps:
try each local gopath in order; on the first candidate directory that
exists, load the project there (an error aborts WrapProject), force its
ImportRoot to the declared name, and stop.  When no gopath has the
directory, the slice entry is left at its zero value nil (ok none). -/
def wrapSub (env : WrapEnv) (absRoot : String) (sub : String) :
    List String → Except String (Option DepProject)
  | [] => .ok none
  | gp :: rest =>
    let candidate := pathJoin (pathJoin (pathJoin absRoot gp) "src") sub
    if env.existingDirs.contains candidate then
      match lookupKey env.loadedProjects candidate with
      | none => .error "LoadProject failed"
      | some proj => .ok (some { proj with importRoot := sub })
    else wrapSub env absRoot sub rest

/-- Lines 67-93 of project.go: build the SubProjects slice, one (possibly
nil) entry per Meta.LocalDeps element. -/
def wrapSubProjects (env : WrapEnv) (absRoot : String) (gopaths : List String) :
    List String → Except String (List (Option DepProject))
  | [] => .ok []
  | d :: rest =>
    match wrapSub env absRoot d gopaths with
    | .error e => .error e
    | .ok o =>
      match wrapSubProjects env absRoot gopaths rest with
      | .error e => .error e
      | .ok os => .ok (o :: os)

/-- One dependency entry of the generated Godeps.json (lines 166-170 of
project.go). -/
structure Dependency where
  importPath : String
  comment : String
  rev : String
deriving DecidableEq

/-- The godeps document written for compatibility (lines 160-164 of
project.go). -/
structure Godeps where
  comment : String
  importPath : String
  deps : List Dependency
deriving DecidableEq

/-- Lexicographic order on character lists, the model of the order
strings.Compare induces; on UTF-8 strings byte order and codepoint order
agree. -/
def lexLe : List Char → List Char → Bool
  | [], _ => true
  | _ :: _, [] => false
  | a :: as, b :: bs =>
    if a < b then true
    else if b < a then false
    else lexLe as bs

theorem lexLe_total : ∀ l₁ l₂ : List Char, lexLe l₁ l₂ = true ∨ lexLe l₂ l₁ = true := by
  intro l₁
  induction l₁ with
  | nil => intro l₂; exact .inl rfl
  | cons a as ih =>
    intro l₂
    cases l₂ with
    | nil => exact .inr rfl
    | cons b bs =>
      rcases lt_trichotomy a b with hab | hab | hab
      · left; simp [lexLe, hab]
      · subst hab
        rcases ih bs with h | h
        · left; simp [lexLe, h]
        · right; simp [lexLe, h]
      · right; simp [lexLe, hab]

theorem lexLe_cons_iff {a b : Char} {as bs : List Char} :
    lexLe (a :: as) (b :: bs) = true ↔ a < b ∨ (a = b ∧ lexLe as bs = true) := by
  rcases lt_trichotomy a b with hab | hab | hab
  · simp [lexLe, hab]
  · subst hab
    simp [lexLe, lt_irrefl]
  · have hne : a ≠ b := ne_of_gt hab
    simp [lexLe, hab, not_lt_of_gt hab, hne]

theorem lexLe_trans : ∀ l₁ l₂ l₃ : List Char,
    lexLe l₁ l₂ = true → lexLe l₂ l₃ = true → lexLe l₁ l₃ = true := by
  intro l₁
  induction l₁ with
  | nil => intro l₂ l₃ _ _; rfl
  | cons a as ih =>
    intro l₂ l₃ h12 h23
    cases l₂ with
    | nil => exact absurd h12 (by simp [lexLe])
    | cons b bs =>
      cases l₃ with
      | nil => exact absurd h23 (by simp [lexLe])
      | cons c cs =>
        rcases lexLe_cons_iff.mp h12 with hab | ⟨hab, hrest12⟩
        · rcases lexLe_cons_iff.mp h23 with hbc | ⟨hbc, _⟩
          · exact lexLe_cons_iff.mpr (.inl (lt_trans hab hbc))
          · exact lexLe_cons_iff.mpr (.inl (hbc ▸ hab))
        · subst hab
          rcases lexLe_cons_iff.mp h23 with hbc | ⟨hbc, hrest23⟩
          · exact lexLe_cons_iff.mpr (.inl hbc)
          · exact lexLe_cons_iff.mpr (.inr ⟨hbc, ih bs cs hrest12 hrest23⟩)

/-- Ordering used by dumpToFile (lines 173-175 of project.go): sorting with
the less function strings.Compare(x, y) < 0 leaves the slice nondecreasing
in this lexicographic order on ImportPath. -/
def depLe (a b : Dependency) : Prop :=
  lexLe a.importPath.data b.importPath.data = true

instance : DecidableRel depLe := fun a b =>
  inferInstanceAs (Decidable (lexLe a.importPath.data b.importPath.data = true))

instance : IsTotal Dependency depLe :=
  ⟨fun a b => lexLe_total a.importPath.data b.importPath.data⟩

instance : IsTrans Dependency depLe :=
  ⟨fun a b c => lexLe_trans a.importPath.data b.importPath.data c.importPath.data⟩

/-- Lines 172-183 of project.go: dumpToFile sorts the dependency slice
by import path and serialises the document.  The JSON encoding and the file
write are external and deterministic; the written content is modelled as
the sorted document itself.  The Go sort.Slice function is an unstable but
deterministic sort, modelled by insertion sort. -/
def Godeps.dumpToFile (gd : Godeps) : Godeps :=
  { gd with deps := gd.deps.insertionSort depLe }

/-- One project of a gps.Solution as read by HackGodepsCompat: its root,
the revision and version strings extracted by gps.VersionComponentStrings
(external), and its package list. -/
structure LockedProject where
  projectRoot : String
  rev : String
  ver : String
  packages : List String
deriving DecidableEq

/-- A gps.Solution as consumed by HackGodepsCompat: the list returned by
s.Projects(). -/
abbrev Solution := List LockedProject

/-- Lines 193-207 of project.go: flatten the solution into one dependency
entry per (project, package), joining root and package path, carrying the
revision, and setting Comment to the version only when it is nonempty
(the zero value of Comment is already the empty string). -/
def gatherDeps (s : Solution) : List Dependency :=
  s.foldl (fun deps p =>
    deps ++ p.packages.map (fun pkg =>
      { importPath := pathJoin p.projectRoot pkg
        comment := p.ver
        rev := p.rev })) []

/-- Lines 186-215 of project.go: HackGodepsCompat is a no-op in fallback
mode or when the manifest does not request godep compatibility; otherwise
it writes the sorted godeps document.  The returned value is the file
content written (none when nothing is written). -/
def Project.hackGodepsCompat (fallbackToDep : Bool) (p : Project) (s : Solution) :
    Option Godeps :=
  if fallbackToDep || !p.manifest.meta.godepCompat then none
  else
    some (Godeps.dumpToFile
      { comment := "GENERATED BY DEP, DO NOT EDIT"
        importPath := p.depProject.importRoot
        deps := gatherDeps s })

end Kdep

namespace Ws

/-- rawPackage of the workspace manifest (lines 348-351 of project.go). -/
structure RawPackage where
  name : String
  path : String
deriving DecidableEq

/-- rawManifest (lines 344-346 of project.go): the TOML decoding only binds
the package list; no prune field exists in the raw form, so prune options
written in the file are never read. -/
structure RawManifest where
  packages : List RawPackage
deriving DecidableEq

/-- The gps prune flag constants (external gps library): bit flags, as in
gps/prune.go. -/
def pruneNestedVendorDirs : Nat := 1

def pruneUnusedPackages : Nat := 2

def pruneNonGoFiles : Nat := 4

def pruneGoTestFiles : Nat := 8

/-- gps.CascadingPruneOptions: process-wide default flags plus per-project
settings. -/
structure CascadingPruneOptions where
  defaultOptions : Nat
  perProjectOptions : List (String × Nat)
deriving DecidableEq

/-- The workspace Manifest (lines 276-279 of project.go). -/
structure Manifest where
  packages : List RawPackage
  pruneOptions : CascadingPruneOptions
deriving DecidableEq

/-- Lines 302-310 of project.go: fromRawManifest copies the package list
and sets PruneOptions to the fixed defaults with an empty per-project
map, whatever the raw manifest contained. -/
def fromRawManifest (raw : RawManifest) : Manifest :=
  { packages := raw.packages
    pruneOptions :=
      { defaultOptions := pruneNestedVendorDirs ||| pruneGoTestFiles ||| pruneUnusedPackages
        perProjectOptions := [] } }

/-- Lines 281-300 of project.go: readManifest reads the byte stream and
TOML-decodes it (both external; their combined outcome is the input here),
then converts through fromRawManifest. -/
def readManifest (parsed : Except String RawManifest) : Except String Manifest :=
  match parsed with
  | .error e => .error e
  | .ok raw => .ok (fromRawManifest raw)

/-- Lines 312-318 of project.go: NewManifest opens the manifest file and
calls readManifest, discarding any error, so a failed read yields a nil
manifest (none). -/
def newManifest (parsed : Except String RawManifest) : Option Manifest :=
  match readManifest parsed with
  | .error _ => none
  | .ok m => some m

/-- One member dep.Project as the workspace command reads it: the tables
its dep manifest provides (DependencyConstraints, Overrides,
IgnoredPackages) and the tree its own ParseRootPackageTree returns.  All
four come from the external dep/gps library, so they are inputs of the
embedding. -/
structure Project where
  dependencyConstraints : List (String × ProjectProperties)
  overrides : List (String × ProjectProperties)
  ignoredPackages : List String
  rootTree : PackageTree
deriving DecidableEq

/-- Workspace (lines 353-358 of project.go). -/
structure Workspace where
  absRoot : String
  hasLock : Bool
  projects : List Project
deriving DecidableEq

/-- Lines 373-389 of project.go: Workspace.DependencyConstraints.  For each
member project, fold its declared constraints into the accumulated table.
When the root is already present the source reads the struct value out of
the map into a local copy, updates the Constraint of the copy with Intersect,
and never stores the copy back: the update is dead and the table keeps the
first binding.  The dead store is kept here as an unused let. -/
def Workspace.dependencyConstraints (w : Workspace) : List (String × ProjectProperties) :=
  w.projects.foldl (fun constraints p =>
    p.dependencyConstraints.foldl (fun cs rp =>
      match lookupKey cs rp.1 with
      | some q =>
        let _dead := { q with constraint := q.constraint.intersect rp.2.constraint }
        cs
      | none => cs ++ [(rp.1, rp.2)]) constraints) []

/-- Lines 391-406 of project.go: Workspace.Overrides, identical in shape to
DependencyConstraints, including the dead intersect-on-a-copy. -/
def Workspace.overrides (w : Workspace) : List (String × ProjectProperties) :=
  w.projects.foldl (fun constraints p =>
    p.overrides.foldl (fun cs rp =>
      match lookupKey cs rp.1 with
      | some q =>
        let _dead := { q with constraint := q.constraint.intersect rp.2.constraint }
        cs
      | none => cs ++ [(rp.1, rp.2)]) constraints) []

/-- Lines 441-454 of project.go: Workspace.ParseRootPackageTree starts from
an empty map whose ImportRoot is the absolute filesystem root of the
workspace and copies in the tree of every member project (its error is
ignored); the
returned error is always nil. -/
def Workspace.parseRootPackageTree (w : Workspace) : PackageTree :=
  { importRoot := w.absRoot
    packages := mergePackages [] (w.projects.map (fun p => p.rootTree.packages)) }

/-- Modelled from the spec: checkErrors is code of this repository outside
src/ (the cmd/dep package; only its caller at lines 486-494 is in src).
Spec sections 7(d) and 8 require a per-package parse failure to be recorded
inline rather than aborting, escalated only when the broken package is
required, and a tree with one erroring package among valid unrelated ones
must still allow the solve to proceed.  Accordingly the pre-solve check is
fatal exactly when no non-ignored package parsed successfully (nothing
usable to solve), and otherwise reports errors non-fatally (first
component: fatal; second: some error was seen). -/
def checkErrors (pkgs : List (String × PackageOrErr)) (ignored : List String) :
    Bool × Bool :=
  let considered := pkgs.filter (fun e => !(ignored.contains e.1))
  (!(considered.any (fun e => e.2.isPkg)), considered.any (fun e => e.2.isErr))

/-- Outcomes of the external collaborators invoked by workspaceCommand.Run:
the source manager, dep.ValidateProjectRoots, ctx.ValidateParams,
gps.Prepare and solver.Solve. -/
structure RunEnv where
  sourceManagerOk : Bool
  validateRootsOk : Bool
  validateParamsOk : Bool
  prepareOk : Bool
  solveOk : Bool
deriving DecidableEq

/-- Where workspaceCommand.Run ends: an error returned before the solver
runs (tagged with the failing step), or solver.Solve invoked (with the
solve outcome). -/
inductive RunResult where
  | errBefore (stage : String)
  | solveCalled (ok : Bool)
deriving DecidableEq

/-- Lines 456-513 of project.go: the control flow of workspaceCommand.Run
up to the solver.  NewWorkspace never fails for a well-formed workspace
(getProjects always returns a nil error); Workspace.ParseRootPackageTree
always returns a nil error; nothing between aggregation and gps.Prepare
inspects the constraint tables (they are only consumed by the solver
through params.Manifest = w). -/
def workspaceCommandRun (w : Workspace) (argsLen : Nat) (env : RunEnv) : RunResult :=
  if !env.sourceManagerOk then .errBefore "SourceManager"
  else if !env.validateRootsOk then .errBefore "ValidateProjectRoots"
  else
    let tree := w.parseRootPackageTree
    if w.projects.any (fun p => (checkErrors tree.packages p.ignoredPackages).1) then
      .errBefore "checkErrors"
    else if argsLen ≠ 0 then .errBefore "args"
    else if !env.validateParamsOk then .errBefore "ValidateParams"
    else if !env.prepareOk then .errBefore "prepare solver"
    else .solveCalled env.solveOk

end Ws

theorem lookupOverlays_isSome_of_mem {overlays : List (List (String × PackageOrErr))}
    {k : String} {ov : List (String × PackageOrErr)} (hmem : ov ∈ overlays)
    (h : (lookupKey ov k).isSome = true) : (lookupOverlays overlays k).isSome = true := by
  induction overlays with
  | nil => cases hmem
  | cons o rest ih =>
    unfold lookupOverlays
    cases hrest : lookupOverlays rest k with
    | some v => simp
    | none =>
      rcases List.mem_cons.mp hmem with heq | hm
      · subst heq; simpa using h
      · have hsome := ih hm
        rw [hrest] at hsome
        simp at hsome

/-- Claim C3: merging a base package tree with sub-project overlay trees, as
done by kdep Project.ParseRootPackageTree, (1) drops every base entry
whose import path falls under ImportRoot + "/" + a local gopath unless some
overlay re-adds that import path, (2) gives every import path present in an
overlay the value of the overlay chain (the last overlay wins), overwriting any
base entry at that path, and (3) keeps every import path that appears in
some overlay, so stale superseded entries never survive the merge. -/
theorem kdep_C3_merge (ir : String) (gopaths : List String) (base : PackageTree)
    (subs : List PackageTree) (k : String) :
    (underLocalGopath ir gopaths k = true →
      (∀ t ∈ subs, lookupKey t.packages k = none) →
      lookupKey (mergePackageTree ir gopaths base subs).packages k = none)
    ∧ (∀ v, lookupOverlays (subs.map (fun t => t.packages)) k = some v →
      lookupKey (mergePackageTree ir gopaths base subs).packages k = some v)
    ∧ ((∃ t ∈ subs, (lookupKey t.packages k).isSome = true) →
      (lookupKey (mergePackageTree ir gopaths base subs).packages k).isSome = true) := by
  refine ⟨?_, ?_, ?_⟩
  · intro hu hnone
    show lookupKey (mergePackages (stripLocalGopaths ir gopaths base.packages)
      (subs.map (fun t => t.packages))) k = none
    have ho : lookupOverlays (subs.map (fun t => t.packages)) k = none := by
      apply lookupOverlays_of_all_none
      intro ov hov
      obtain ⟨t, ht, rfl⟩ := List.mem_map.mp hov
      exact hnone t ht
    rw [lookupKey_mergePackages, ho]
    show lookupKey (stripLocalGopaths ir gopaths base.packages) k = none
    apply lookupKey_filter_of_key_dropped
    intro v
    simp [hu]
  · intro v hv
    show lookupKey (mergePackages (stripLocalGopaths ir gopaths base.packages)
      (subs.map (fun t => t.packages))) k = some v
    rw [lookupKey_mergePackages, hv]
  · intro hex
    obtain ⟨t, ht, hsome⟩ := hex
    have hov := lookupOverlays_isSome_of_mem (List.mem_map_of_mem (fun t => t.packages) ht) hsome
    obtain ⟨v, hv⟩ := Option.isSome_iff_exists.mp hov
    show (lookupKey (mergePackages (stripLocalGopaths ir gopaths base.packages)
      (subs.map (fun t => t.packages))) k).isSome = true
    rw [lookupKey_mergePackages, hv]
    rfl

/-- Witness for C3 at a concrete merge: the base entry under the local
gopath disappears, and the overlay entry is present with the content of the
overlay. -/
theorem kdep_C3_merge_witness :
    lookupKey (mergePackageTree "github.com/k/root" ["gopath"]
      { importRoot := "github.com/k/root"
        packages := [("github.com/k/root/gopath/src/github.com/a/x", .pkg []),
                     ("github.com/k/root/lib", .pkg [])] }
      [{ importRoot := "github.com/a/x"
         packages := [("github.com/a/x", .pkg ["fmt"])] }]).packages
      "github.com/k/root/gopath/src/github.com/a/x" = none
    ∧ lookupKey (mergePackageTree "github.com/k/root" ["gopath"]
      { importRoot := "github.com/k/root"
        packages := [("github.com/k/root/gopath/src/github.com/a/x", .pkg []),
                     ("github.com/k/root/lib", .pkg [])] }
      [{ importRoot := "github.com/a/x"
         packages := [("github.com/a/x", .pkg ["fmt"])] }]).packages
      "github.com/a/x" = some (.pkg ["fmt"]) := by
  constructor
  · exact (kdep_C3_merge "github.com/k/root" ["gopath"] _ _
      "github.com/k/root/gopath/src/github.com/a/x").1 (by decide) (by decide)
  · exact ((kdep_C3_merge "github.com/k/root" ["gopath"] _ _ "github.com/a/x").2).1
      (.pkg ["fmt"]) (by decide)

/-- Claim C6: merging an overlay tree into itself is the identity: the
merged tree has the same import root and, at every import path, the same
package-or-error content as the original tree. -/
theorem kdep_C6_merge_idempotent (ir : String) (gopaths : List String)
    (t : PackageTree) (k : String) :
    lookupKey (mergePackageTree ir gopaths t [t]).packages k = lookupKey t.packages k
    ∧ (mergePackageTree ir gopaths t [t]).importRoot = t.importRoot := by
  constructor
  · show lookupKey (mergePackages (stripLocalGopaths ir gopaths t.packages) [t.packages]) k = _
    rw [lookupKey_mergePackages]
    cases hv : lookupKey t.packages k with
    | some v => simp [lookupOverlays, hv]
    | none =>
      have hstrip : lookupKey (stripLocalGopaths ir gopaths t.packages) k = none :=
        lookupKey_filter_none _ hv
      simp [lookupOverlays, hv, hstrip]
  · rfl

/-- A two-member workspace whose manifests both constrain the same
ProjectRoot (and both override another), with different intervals. -/
def wC1 : Ws.Workspace :=
  { absRoot := "/home/u/ws"
    hasLock := false
    projects :=
      [{ dependencyConstraints := [("github.com/dep/r", { source := "", constraint := ⟨1, 5⟩ })]
         overrides := [("github.com/dep/o", { source := "", constraint := ⟨10, 20⟩ })]
         ignoredPackages := []
         rootTree := { importRoot := "github.com/m/one"
                       packages := [("github.com/m/one", .pkg [])] } },
       { dependencyConstraints := [("github.com/dep/r", { source := "", constraint := ⟨2, 3⟩ })]
         overrides := [("github.com/dep/o", { source := "", constraint := ⟨12, 15⟩ })]
         ignoredPackages := []
         rootTree := { importRoot := "github.com/m/two"
                       packages := [("github.com/m/two", .pkg [])] } }] }

/-- Claim C1 (code bug): for a ProjectRoot declared in two manifests the
aggregated tables keep the constraint of the FIRST manifest, because the
Intersect result is assigned to a struct value copied out of the map and
never stored back.  At this input the intersection differs from the first
constraint, both for dependency constraints and for overrides, so the
tables do not hold the intersection the spec (and the Intersect call
itself) intend. -/
theorem kdep_C1_intersect_dropped :
    lookupKey (Ws.Workspace.dependencyConstraints wC1) "github.com/dep/r" =
      some { source := "", constraint := ⟨1, 5⟩ }
    ∧ Constraint.intersect ⟨1, 5⟩ ⟨2, 3⟩ = ⟨2, 3⟩
    ∧ (⟨1, 5⟩ : Constraint) ≠ ⟨2, 3⟩
    ∧ lookupKey (Ws.Workspace.overrides wC1) "github.com/dep/o" =
      some { source := "", constraint := ⟨10, 20⟩ }
    ∧ Constraint.intersect ⟨10, 20⟩ ⟨12, 15⟩ = ⟨12, 15⟩
    ∧ (⟨10, 20⟩ : Constraint) ≠ ⟨12, 15⟩ := by
  refine ⟨by decide, by decide, by decide, by decide, by decide, by decide⟩

/-- All external collaborators succeed. -/
def envOk : Ws.RunEnv :=
  { sourceManagerOk := true, validateRootsOk := true, validateParamsOk := true
    prepareOk := true, solveOk := true }

/-- A two-member workspace whose declared constraints for the same
ProjectRoot intersect to the empty constraint. -/
def wC2 : Ws.Workspace :=
  { absRoot := "/home/u/ws"
    hasLock := false
    projects :=
      [{ dependencyConstraints := [("github.com/dep/r", { source := "", constraint := ⟨1, 1⟩ })]
         overrides := []
         ignoredPackages := []
         rootTree := { importRoot := "github.com/m/one"
                       packages := [("github.com/m/one", .pkg [])] } },
       { dependencyConstraints := [("github.com/dep/r", { source := "", constraint := ⟨2, 2⟩ })]
         overrides := []
         ignoredPackages := []
         rootTree := { importRoot := "github.com/m/two"
                       packages := [("github.com/m/two", .pkg [])] } }] }

/-- A one-member workspace whose single manifest declares an already-empty
constraint, so the aggregated table itself contains an empty constraint. -/
def wC2single : Ws.Workspace :=
  { absRoot := "/home/u/ws"
    hasLock := false
    projects :=
      [{ dependencyConstraints := [("github.com/dep/r", { source := "", constraint := ⟨2, 1⟩ })]
         overrides := []
         ignoredPackages := []
         rootTree := { importRoot := "github.com/m/one"
                       packages := [("github.com/m/one", .pkg [])] } }] }

/-- Claim C2 is false on the code: at wC2 the two declared constraints for
github.com/dep/r intersect to the empty constraint, yet aggregation returns
a plain table (holding the constraint of the first manifest, no error) and
workspaceCommand.Run still reaches solver.Solve; and at wC2single the
aggregated table itself contains an empty constraint and the solver is
still started. -/
theorem kdep_C2_counterexample :
    Constraint.isEmpty (Constraint.intersect ⟨1, 1⟩ ⟨2, 2⟩) = true
    ∧ Ws.Workspace.dependencyConstraints wC2 =
      [("github.com/dep/r", { source := "", constraint := ⟨1, 1⟩ })]
    ∧ Ws.workspaceCommandRun wC2 0 envOk = .solveCalled true
    ∧ lookupKey (Ws.Workspace.dependencyConstraints wC2single) "github.com/dep/r" =
      some { source := "", constraint := ⟨2, 1⟩ }
    ∧ Constraint.isEmpty ⟨2, 1⟩ = true
    ∧ Ws.workspaceCommandRun wC2single 0 envOk = .solveCalled true := by
  refine ⟨by decide, by decide, by decide, by decide, by decide, by decide⟩

theorem anyOfFilter {α : Type} (l : List α) (p q : α → Bool) :
    (l.filter p).any q = l.any (fun a => p a && q a) := by
  induction l with
  | nil => rfl
  | cons a t ih =>
    by_cases hp : p a = true
    · rw [List.filter_cons_of_pos hp]
      simp [hp, ih]
    · rw [List.filter_cons_of_neg hp]
      simp [hp, ih]

theorem run_reaches_solve (w : Ws.Workspace) (env : Ws.RunEnv)
    (h1 : env.sourceManagerOk = true) (h2 : env.validateRootsOk = true)
    (hfatal : ∀ p ∈ w.projects,
      (Ws.checkErrors (Ws.Workspace.parseRootPackageTree w).packages p.ignoredPackages).1 = false)
    (h3 : env.validateParamsOk = true) (h4 : env.prepareOk = true) :
    Ws.workspaceCommandRun w 0 env = .solveCalled env.solveOk := by
  have hany : (w.projects.any (fun p =>
      (Ws.checkErrors (Ws.Workspace.parseRootPackageTree w).packages p.ignoredPackages).1)) =
      false := by
    rw [List.any_eq_false]
    intro p hp
    simp [hfatal p hp]
  unfold Ws.workspaceCommandRun
  rw [h1, h2, h3, h4]
  simp [hany]

/-- Claim C2 amended: neither aggregation nor workspaceCommand.Run checks
constraints for emptiness.  Workspace.DependencyConstraints returns only a
table (its type has no error component), and whenever the external
collaborators succeed and the package-tree check passes, Run invokes the
solver, whatever the constraint tables contain; conflicting or empty
constraints are left for the solver to discover. -/
theorem kdep_C2_amended (w : Ws.Workspace) (env : Ws.RunEnv)
    (h1 : env.sourceManagerOk = true) (h2 : env.validateRootsOk = true)
    (hfatal : ∀ p ∈ w.projects,
      (Ws.checkErrors (Ws.Workspace.parseRootPackageTree w).packages p.ignoredPackages).1 = false)
    (h3 : env.validateParamsOk = true) (h4 : env.prepareOk = true) :
    Ws.workspaceCommandRun w 0 env = .solveCalled env.solveOk :=
  run_reaches_solve w env h1 h2 hfatal h3 h4

/-- Witness for the amended C2 at the concrete conflicting workspace. -/
theorem kdep_C2_amended_witness : Ws.workspaceCommandRun wC2 0 envOk = .solveCalled true :=
  kdep_C2_amended wC2 envOk rfl rfl (by decide) rfl rfl

/-- A kdep root project whose base tree has an entry under a local gopath:
kdep-mode parsing strips it, fallback-mode parsing keeps it. -/
def pC4 : Kdep.Project :=
  { depProject :=
      { importRoot := "github.com/k/root"
        rootTree := { importRoot := "github.com/k/root"
                      packages := [("github.com/k/root/gopath/src/github.com/a/b", .pkg []),
                                   ("github.com/k/root/cmd", .pkg [])] } }
    absRoot := "/home/k/root"
    manifest := { meta := { isKdepRoot := true, isKdepChild := false, localDeps := []
                            localGopaths := ["gopath"], godepCompat := false } }
    subProjects := []
    depParams := { rootDir := "/home/k/root", usesKdepManifest := false, hasLock := false }
    hasLock := false }

/-- Claim C4 is false on the code: WrapProject writes the package-level
mutable flag FallbackToDep.  Wrapping a project with no kdep manifest sets
the flag, and the very same ParseRootPackageTree call on the unrelated kdep
project pC4 then returns a different tree (the stripped entry reappears),
so two runs with identical explicit inputs differ once another project was
wrapped in between. -/
theorem kdep_C4_counterexample :
    Kdep.wrapProjectFallback false none = true
    ∧ Kdep.Project.parseRootPackageTree false pC4 ≠
      Kdep.Project.parseRootPackageTree (Kdep.wrapProjectFallback false none) pC4 := by
  refine ⟨by decide, by decide⟩

/-- Claim C4 amended: the behavior is a function of the explicit inputs
plus the package-level FallbackToDep flag.  Wrapping any non-kdep project
(nil manifest or neither root nor child) leaves the flag true regardless of
its previous value, and with the flag set every subsequent
ParseRootPackageTree returns the unmerged dep tree, every MakeParams
returns the dep parameters, and every HackGodepsCompat writes nothing, for
any project and any solution.  Runs are identical only when the initial
flag state is identical. -/
theorem kdep_C4_amended (st : Bool) (m : Option Kdep.Manifest) (p : Kdep.Project)
    (s : Kdep.Solution) (h : Kdep.isNonKdep m = true) :
    Kdep.wrapProjectFallback st m = true
    ∧ Kdep.Project.parseRootPackageTree true p = some p.depProject.rootTree
    ∧ Kdep.Project.makeParams true p = p.depParams
    ∧ Kdep.Project.hackGodepsCompat true p s = none := by
  refine ⟨?_, rfl, rfl, rfl⟩
  unfold Kdep.wrapProjectFallback
  cases st <;> simp [h]

/-- Witness for the amended C4 at the concrete flag transition, project
and solution. -/
theorem kdep_C4_amended_witness :
    Kdep.wrapProjectFallback false none = true
    ∧ Kdep.Project.parseRootPackageTree true pC4 = some pC4.depProject.rootTree
    ∧ Kdep.Project.makeParams true pC4 = pC4.depParams
    ∧ Kdep.Project.hackGodepsCompat true pC4 [] = none :=
  kdep_C4_amended false none pC4 [] rfl

/-- Claim C5: a successful godeps-compatibility export is the sorted
projection of the Solution: its dependency entries are sorted by import
path, they are exactly a permutation of the entries gathered from the
projects and packages of the Solution, and the header carries the import
root of the project.  The export is a pure function of the Solution and the
project in this embedding, so two exports of the same Solution coincide. -/
theorem kdep_C5_godeps_sorted (p : Kdep.Project) (s : Kdep.Solution) (gd : Kdep.Godeps)
    (h : Kdep.Project.hackGodepsCompat false p s = some gd) :
    List.Sorted Kdep.depLe gd.deps
    ∧ gd.deps.Perm (Kdep.gatherDeps s)
    ∧ gd.importPath = p.depProject.importRoot := by
  unfold Kdep.Project.hackGodepsCompat at h
  by_cases hg : p.manifest.meta.godepCompat = true
  · rw [hg] at h
    simp only [Bool.false_or, Bool.not_true, if_neg] at h
    have hgd : gd = Kdep.Godeps.dumpToFile
        { comment := "GENERATED BY DEP, DO NOT EDIT"
          importPath := p.depProject.importRoot
          deps := Kdep.gatherDeps s } := by
      cases h; rfl
    subst hgd
    exact ⟨List.sorted_insertionSort Kdep.depLe _, List.perm_insertionSort Kdep.depLe _, rfl⟩
  · exfalso
    have hg2 : p.manifest.meta.godepCompat = false := by
      cases hv : p.manifest.meta.godepCompat
      · rfl
      · exact absurd hv hg
    rw [hg2] at h
    simp at h

/-- A concrete two-project solution, listed in unsorted order. -/
def sC5 : Kdep.Solution :=
  [{ projectRoot := "github.com/b", rev := "rev2", ver := "", packages := ["pkg"] },
   { projectRoot := "github.com/a", rev := "rev1", ver := "v1.0.0", packages := ["sub"] }]

/-- A kdep project requesting godep compatibility. -/
def pC5 : Kdep.Project :=
  { depProject :=
      { importRoot := "github.com/k/root"
        rootTree := { importRoot := "github.com/k/root", packages := [] } }
    absRoot := "/home/k/root"
    manifest := { meta := { isKdepRoot := true, isKdepChild := false, localDeps := []
                            localGopaths := [], godepCompat := true } }
    subProjects := []
    depParams := { rootDir := "/home/k/root", usesKdepManifest := false, hasLock := false }
    hasLock := false }

/-- The file content the export writes for pC5 and sC5: entries sorted
by import path. -/
def gdC5 : Kdep.Godeps :=
  { comment := "GENERATED BY DEP, DO NOT EDIT"
    importPath := "github.com/k/root"
    deps := [{ importPath := "github.com/a/sub", comment := "v1.0.0", rev := "rev1" },
             { importPath := "github.com/b/pkg", comment := "", rev := "rev2" }] }

/-- Witness for C5 at the concrete solution. -/
theorem kdep_C5_godeps_sorted_witness :
    List.Sorted Kdep.depLe gdC5.deps
    ∧ gdC5.deps.Perm (Kdep.gatherDeps sC5)
    ∧ gdC5.importPath = pC5.depProject.importRoot :=
  kdep_C5_godeps_sorted pC5 sC5 gdC5 (by decide)

/-- A workspace under filesystem root /ws with one member project whose
keys are import paths, not filesystem paths. -/
def wC7 : Ws.Workspace :=
  { absRoot := "/ws"
    hasLock := false
    projects :=
      [{ dependencyConstraints := []
         overrides := []
         ignoredPackages := []
         rootTree := { importRoot := "github.com/x"
                       packages := [("github.com/x/y", .pkg [])] } }] }

/-- Claim C7 is false on the code: Workspace.ParseRootPackageTree sets
ImportRoot to the absolute filesystem root of the workspace while its keys
are the import paths of the member projects, so "github.com/x/y" is neither
prefixed by nor equal to the ImportRoot "/ws". -/
theorem kdep_C7_counterexample :
    (Ws.Workspace.parseRootPackageTree wC7).importRoot = "/ws"
    ∧ lookupKey (Ws.Workspace.parseRootPackageTree wC7).packages "github.com/x/y" =
      some (.pkg [])
    ∧ goHasPrefix "github.com/x/y" "/ws" = false
    ∧ "github.com/x/y" ≠ "/ws" := by
  refine ⟨by decide, by decide, by decide, by decide⟩

/-- Claim C7 amended: the ImportRoot of the workspace tree is the absolute
filesystem root of the workspace, and every entry of the tree comes from
the tree of some member project (with the content that project holds); the
keys-under-ImportRoot invariant is not established for this tree, since
member keys are import paths rather than paths under the filesystem
root. -/
theorem kdep_C7_amended (w : Ws.Workspace) (k : String) (v : PackageOrErr)
    (h : lookupKey (Ws.Workspace.parseRootPackageTree w).packages k = some v) :
    (Ws.Workspace.parseRootPackageTree w).importRoot = w.absRoot
    ∧ ∃ p ∈ w.projects, lookupKey p.rootTree.packages k = some v := by
  refine ⟨rfl, ?_⟩
  have hm : lookupKey (mergePackages [] (w.projects.map (fun p => p.rootTree.packages))) k =
      some v := h
  rw [lookupKey_mergePackages] at hm
  cases hov : lookupOverlays (w.projects.map (fun p => p.rootTree.packages)) k with
  | none => rw [hov] at hm; exact absurd hm (by simp [lookupKey])
  | some v2 =>
    rw [hov] at hm
    have hv2 : v2 = v := by cases hm; rfl
    subst hv2
    obtain ⟨ov, hmem, hlk⟩ := lookupOverlays_mem hov
    obtain ⟨p, hp, rfl⟩ := List.mem_map.mp hmem
    exact ⟨p, hp, hlk⟩

/-- Witness for the amended C7 at the concrete workspace. -/
theorem kdep_C7_amended_witness :
    (Ws.Workspace.parseRootPackageTree wC7).importRoot = wC7.absRoot
    ∧ ∃ p ∈ wC7.projects, lookupKey p.rootTree.packages "github.com/x/y" = some (.pkg []) :=
  kdep_C7_amended wC7 "github.com/x/y" (.pkg []) (by decide)

/-- Claim C8: a per-package parse failure stays recorded inline in the
workspace package tree, and as long as each member project still sees a
valid non-ignored package, the pre-solve error check is non-fatal and the
run proceeds to invoke the solver; a solve that depends only on the
unaffected packages is attempted (its outcome is that of the solver). -/
theorem kdep_C8_partial_failure (w : Ws.Workspace) (env : Ws.RunEnv) (kerr emsg : String)
    (h1 : env.sourceManagerOk = true) (h2 : env.validateRootsOk = true)
    (h3 : env.validateParamsOk = true) (h4 : env.prepareOk = true)
    (herr : lookupKey (Ws.Workspace.parseRootPackageTree w).packages kerr = some (.err emsg))
    (hvalid : ∀ p ∈ w.projects, (Ws.Workspace.parseRootPackageTree w).packages.any
      (fun e => !(p.ignoredPackages.contains e.1) && e.2.isPkg) = true) :
    Ws.workspaceCommandRun w 0 env = .solveCalled env.solveOk
    ∧ lookupKey (Ws.Workspace.parseRootPackageTree w).packages kerr = some (.err emsg) := by
  refine ⟨?_, herr⟩
  apply run_reaches_solve w env h1 h2 ?_ h3 h4
  intro p hp
  show (!(((Ws.Workspace.parseRootPackageTree w).packages.filter
    (fun e => !(p.ignoredPackages.contains e.1))).any (fun e => e.2.isPkg))) = false
  rw [anyOfFilter, hvalid p hp]
  rfl

/-- A workspace whose single member tree has one broken package and nine
valid ones. -/
def wC8 : Ws.Workspace :=
  { absRoot := "/home/u/ws"
    hasLock := false
    projects :=
      [{ dependencyConstraints := []
         overrides := []
         ignoredPackages := []
         rootTree :=
           { importRoot := "github.com/m"
             packages := [("github.com/m/broken", .err "parse error"),
                          ("github.com/m/p1", .pkg []), ("github.com/m/p2", .pkg []),
                          ("github.com/m/p3", .pkg []), ("github.com/m/p4", .pkg []),
                          ("github.com/m/p5", .pkg []), ("github.com/m/p6", .pkg []),
                          ("github.com/m/p7", .pkg []), ("github.com/m/p8", .pkg []),
                          ("github.com/m/p9", .pkg [])] } }] }

/-- Witness for C8: one erroring package among nine valid ones does not
stop the run; the solver is still invoked and the error entry remains in
the tree. -/
theorem kdep_C8_partial_failure_witness :
    Ws.workspaceCommandRun wC8 0 envOk = .solveCalled true
    ∧ lookupKey (Ws.Workspace.parseRootPackageTree wC8).packages "github.com/m/broken" =
      some (.err "parse error") :=
  kdep_C8_partial_failure wC8 envOk "github.com/m/broken" "parse error"
    rfl rfl rfl rfl (by decide) (by decide)

/-- An environment in which no candidate directory exists on disk. -/
def envC9 : Kdep.WrapEnv := { existingDirs := [], loadedProjects := [] }

/-- A kdep project whose single declared local dep was not found: its
SubProjects slice holds the nil left by WrapProject. -/
def pC9 : Kdep.Project :=
  { depProject :=
      { importRoot := "github.com/k/root"
        rootTree := { importRoot := "github.com/k/root"
                      packages := [("github.com/k/root/cmd", .pkg [])] } }
    absRoot := "/home/k/root"
    manifest := { meta := { isKdepRoot := true, isKdepChild := false
                            localDeps := ["github.com/a/b"], localGopaths := ["gopath"]
                            godepCompat := false } }
    subProjects := [none]
    depParams := { rootDir := "/home/k/root", usesKdepManifest := false, hasLock := false }
    hasLock := false }

/-- Claim C9 is false on the code (a bug in it): when the declared local
dep github.com/a/b exists under no local gopath, WrapProject returns
successfully with SubProjects = [nil], and the subsequent
ParseRootPackageTree call dereferences that nil sub-project (modelled as
none, a runtime panic in Go). -/
theorem kdep_C9_nil_subproject :
    Kdep.wrapSubProjects envC9 "/home/k/root" ["gopath"] ["github.com/a/b"] = .ok [none]
    ∧ Kdep.Project.parseRootPackageTree false pC9 = none := by
  refine ⟨rfl, rfl⟩

/-- Claim C10: readManifest and NewManifest always produce a Manifest whose
PruneOptions are the fixed defaults — nested-vendor-dirs, go-test-files and
unused-packages pruning with an empty per-project map — whatever the raw
manifest contained; the raw form has no prune field at all, so file-declared
prune options can never flow into the result. -/
theorem kdep_C10_prune_defaults (raw : Ws.RawManifest)
    (parsed : Except String Ws.RawManifest) (m : Ws.Manifest)
    (h : Ws.readManifest parsed = .ok m ∨ Ws.newManifest parsed = some m) :
    (Ws.fromRawManifest raw).pruneOptions =
      { defaultOptions := Ws.pruneNestedVendorDirs ||| Ws.pruneGoTestFiles |||
          Ws.pruneUnusedPackages
        perProjectOptions := [] }
    ∧ m.pruneOptions =
      { defaultOptions := Ws.pruneNestedVendorDirs ||| Ws.pruneGoTestFiles |||
          Ws.pruneUnusedPackages
        perProjectOptions := [] } := by
  refine ⟨rfl, ?_⟩
  cases parsed with
  | error e =>
    rcases h with h | h
    · exact absurd h (by simp [Ws.readManifest])
    · exact absurd h (by simp [Ws.newManifest, Ws.readManifest])
  | ok raw2 =>
    have hm : m = Ws.fromRawManifest raw2 := by
      rcases h with h | h
      · have : Except.ok (Ws.fromRawManifest raw2) = (Except.ok m : Except String Ws.Manifest) := h
        cases this; rfl
      · have : some (Ws.fromRawManifest raw2) = some m := h
        cases this; rfl
    subst hm
    rfl

/-- A raw manifest with one package entry. -/
def rawC10 : Ws.RawManifest := { packages := [{ name := "github.com/a", path := "a" }] }

/-- Witness for C10 at a concrete raw manifest. -/
theorem kdep_C10_prune_defaults_witness :
    (Ws.fromRawManifest rawC10).pruneOptions =
      { defaultOptions := Ws.pruneNestedVendorDirs ||| Ws.pruneGoTestFiles |||
          Ws.pruneUnusedPackages
        perProjectOptions := [] }
    ∧ (Ws.fromRawManifest rawC10).pruneOptions =
      { defaultOptions := Ws.pruneNestedVendorDirs ||| Ws.pruneGoTestFiles |||
          Ws.pruneUnusedPackages
        perProjectOptions := [] } :=
  kdep_C10_prune_defaults rawC10 (.ok rawC10) (Ws.fromRawManifest rawC10) (.inl rfl)

end KdepSpec
